import Mathlib

/-!
A shallow embedding of `pdftocgen/filter.py`: span filters for ToC
extraction.  Python floats are modelled as rationals, Python's
arbitrary-precision integers as `Int`, Python dictionaries as structures
with `Option` fields (a missing key is `none`), and a raised exception as
`Except`/`Option` failure.
-/

/-! ### Python integer bitwise operations

Python integers are arbitrary-precision two's-complement values: a
negative number `-(m+1)` (Lean's `Int.negSucc m`) behaves as the infinite
bit pattern that complements `m`.  The four cases of each operation below
are the standard two's-complement identities, e.g.
`(~m) & n = n AND NOT m` and `(~m) & (~n) = ~(m | n)`.
`natDiff m n` is `m AND NOT n` on naturals, computed as `m ^^^ (m &&& n)`
so that it evaluates by kernel reduction. -/

def natDiff (m n : Nat) : Nat := m ^^^ (m &&& n)

/-- Python `~a`, the bitwise complement `-(a+1)`. -/
def pyNot : Int → Int
  | .ofNat m => .negSucc m
  | .negSucc m => .ofNat m

/-- Python `a & b` on arbitrary integers. -/
def pyAnd : Int → Int → Int
  | .ofNat m, .ofNat n => .ofNat (m &&& n)
  | .ofNat m, .negSucc n => .ofNat (natDiff m n)
  | .negSucc m, .ofNat n => .ofNat (natDiff n m)
  | .negSucc m, .negSucc n => .negSucc (m ||| n)

/-- Python `a | b` on arbitrary integers. -/
def pyOr : Int → Int → Int
  | .ofNat m, .ofNat n => .ofNat (m ||| n)
  | .ofNat m, .negSucc n => .negSucc (natDiff n m)
  | .negSucc m, .ofNat n => .negSucc (natDiff m n)
  | .negSucc m, .negSucc n => .negSucc (m &&& n)

/-- Python `a ^ b` on arbitrary integers. -/
def pyXor : Int → Int → Int
  | .ofNat m, .ofNat n => .ofNat (m ^^^ n)
  | .ofNat m, .negSucc n => .negSucc (m ^^^ n)
  | .negSucc m, .ofNat n => .negSucc (m ^^^ n)
  | .negSucc m, .negSucc n => .ofNat (m ^^^ n)

/-- Python booleans used as integers (`x * True = x`, `x * False = 0`). -/
def pyBool (b : Bool) : Int := if b then 1 else 0

/-! ### The regular-expression collaborator -/

/-- Substring occurrence test on character lists: does `pat` occur
contiguously inside the second list?  The empty pattern occurs in every
list. -/
def containsSub (pat : List Char) : List Char → Bool
  | [] => pat.isEmpty
  | c :: rest => pat.isPrefixOf (c :: rest) || containsSub pat rest

/-- Modelled from the spec: the behaviour of Python's `re` module (an
external collaborator, not part of this repository's sources) on the
patterns this development needs.  Per §9 of the spec, `search` has
substring-match semantics and the empty pattern matches any string,
including the empty one; a pattern without metacharacters searches for a
literal substring. -/
def reSearch (pat s : String) : Bool := containsSub pat.toList s.toList

/-! ### filter.py: data model -/

/-- `DEF_TOLERANCE: float = 1e-5` (filter.py line 16). -/
def DEF_TOLERANCE : ℚ := 1 / 100000

/-- A text span record as handed over by the document parser
(`fitz`): every key may be missing. -/
structure Span where
  text : Option String
  font : Option String
  size : Option ℚ
  color : Option Int
  flags : Option Int
  bbox : Option (ℚ × ℚ × ℚ × ℚ)

/-- The `font` sub-record of a filter configuration. -/
structure FontDict where
  name : Option String
  size : Option ℚ
  size_tolerance : Option ℚ
  color : Option Int
  superscript : Option Bool
  italic : Option Bool
  serif : Option Bool
  monospace : Option Bool
  bold : Option Bool

/-- The `bbox` sub-record of a filter configuration. -/
structure BBoxDict where
  left : Option ℚ
  top : Option ℚ
  right : Option ℚ
  bottom : Option ℚ
  tolerance : Option ℚ

/-- A font-configuration record with every key missing. -/
def emptyFontDict : FontDict := ⟨none, none, none, none, none, none, none, none, none⟩

/-- A bbox-configuration record with every key missing. -/
def emptyBBoxDict : BBoxDict := ⟨none, none, none, none, none⟩

/-! ### filter.py: admits_float (lines 19-24) -/

/-- `admits_float(expect, actual, tolerance)`:
`(expect is None) or (actual is not None and abs(expect - actual) <= tolerance)`. -/
def admits_float (expect actual : Option ℚ) (tolerance : ℚ) : Bool :=
  match expect with
  | none => true
  | some e =>
    match actual with
    | none => false
    | some a => decide (|e - a| ≤ tolerance)

/-! ### filter.py: FontFilter (lines 27-101) -/

/-- The state of a `FontFilter`: the compiled name pattern is kept as its
`search` behaviour (a `String → Bool`), the rest mirror the Python
attributes (`flags` is the packed expected-flags word, `ign_mask` the
packed which-flags-are-constrained mask). -/
structure FontFilter where
  name : String → Bool
  size : Option ℚ
  size_tolerance : ℚ
  color : Option Int
  flags : Int
  ign_mask : Int

/-- `FontFilter.__init__(font_dict)` (lines 62-80): bits are
superscript `0b00001`, italic `0b00010`, serif `0b00100`,
monospace `0b01000`, bold `0b10000`; `x * bool` is the branchless trick
of the source. -/
def FontFilter.ofDict (d : FontDict) : FontFilter where
  name := reSearch (d.name.getD "")
  size := d.size
  size_tolerance := d.size_tolerance.getD DEF_TOLERANCE
  color := d.color
  flags :=
    pyOr (pyOr (pyOr (pyOr (1 * pyBool (d.superscript.getD false))
      (2 * pyBool (d.italic.getD false)))
      (4 * pyBool (d.serif.getD false)))
      (8 * pyBool (d.monospace.getD false)))
      (16 * pyBool (d.bold.getD false))
  ign_mask :=
    pyOr (pyOr (pyOr (pyOr (1 * pyBool d.superscript.isSome)
      (2 * pyBool d.italic.isSome))
      (4 * pyBool d.serif.isSome))
      (8 * pyBool d.monospace.isSome))
      (16 * pyBool d.bold.isSome)

/-- The style-flag step of `FontFilter.admits` (lines 99-101):
`flags = spn.get('flags', ~self.flags)`, then
`not (flags ^ self.flags) & self.ign_mask`
(Python `not x` on an integer is `x == 0`). -/
def FontFilter.flagCheck (f : FontFilter) (spn : Span) : Bool :=
  let flags := spn.flags.getD (pyNot f.flags)
  pyAnd (pyXor flags f.flags) f.ign_mask == 0

/-- `FontFilter.admits(spn)` (lines 82-101): the name pattern must find a
match in `spn.get('font', "")`; a constrained color must equal the span's
color (`self.color != spn.get('color')` compares with `None` when the key
is missing, hence the `Option Int` equality); the size must pass
`admits_float`; and finally the style-flag step. -/
def FontFilter.admits (f : FontFilter) (spn : Span) : Bool :=
  if !(f.name (spn.font.getD "")) then false
  else if f.color.isSome && !(f.color == spn.color) then false
  else if !(admits_float f.size spn.size f.size_tolerance) then false
  else f.flagCheck spn

/-! ### filter.py: BoundingBoxFilter (lines 104-131) -/

structure BoundingBoxFilter where
  left : Option ℚ
  top : Option ℚ
  right : Option ℚ
  bottom : Option ℚ
  tolerance : ℚ

/-- `BoundingBoxFilter.__init__(bbox_dict)` (lines 112-117). -/
def BoundingBoxFilter.ofDict (d : BBoxDict) : BoundingBoxFilter where
  left := d.left
  top := d.top
  right := d.right
  bottom := d.bottom
  tolerance := d.tolerance.getD DEF_TOLERANCE

/-- `bbox = spn.get('bbox', (None, None, None, None))`: the four
coordinates of the span's bounding box, each absent when the key is. -/
def Span.bboxGet (spn : Span) : Option ℚ × Option ℚ × Option ℚ × Option ℚ :=
  match spn.bbox with
  | some (l, t, r, b) => (some l, some t, some r, some b)
  | none => (none, none, none, none)

/-- `BoundingBoxFilter.admits(spn)` (lines 119-131). -/
def BoundingBoxFilter.admits (f : BoundingBoxFilter) (spn : Span) : Bool :=
  let bbox := spn.bboxGet
  admits_float f.left bbox.1 f.tolerance &&
  admits_float f.top bbox.2.1 f.tolerance &&
  admits_float f.right bbox.2.2.1 f.tolerance &&
  admits_float f.bottom bbox.2.2.2 f.tolerance

/-! ### filter.py: ToCFilter (lines 134-193) -/

/-- The external record shapes above the span level: each collection key
may be missing (`page.get('blocks', [])` etc.). -/
structure Line where
  spans : Option (List Span)

structure Block where
  lines : Option (List Line)

structure Page where
  blocks : Option (List Block)

/-- Modelled from the spec: the `ToCEntry` output record lives in the
external `fitzutils` module, outside the sources here; §3 of the spec
gives its fields: heading `level`, `title`, 1-based `pagenum`, and the
vertical position `vpos`. -/
structure ToCEntry where
  level : Int
  title : String
  pagenum : Nat
  vpos : ℚ
deriving DecidableEq

/-- A filter-configuration record `{level, font, bbox}`, each key
optional. -/
structure FltrDict where
  level : Option Int
  font : Option FontDict
  bbox : Option BBoxDict

structure ToCFilter where
  level : Int
  font : FontFilter
  bbox : BoundingBoxFilter

/-- `ToCFilter.__init__(fltr_dict)` (lines 142-151): `level` must be
present and `>= 1`, otherwise a `ValueError` is raised with the
corresponding message; the font and bbox sub-filters are built from the
sub-records, each defaulting to the empty record. -/
def ToCFilter.ofDict (d : FltrDict) : Except String ToCFilter :=
  match d.level with
  | none => .error "filter's 'level' is not set"
  | some lv =>
    if lv < 1 then .error "filter's 'level' must be >= 1"
    else .ok
      { level := lv
        font := FontFilter.ofDict (d.font.getD emptyFontDict)
        bbox := BoundingBoxFilter.ofDict (d.bbox.getD emptyBBoxDict) }

/-- `ToCFilter.admits(spn)` (lines 153-161). -/
def ToCFilter.admits (f : ToCFilter) (spn : Span) : Bool :=
  f.font.admits spn && f.bbox.admits spn

/-- `ToCFilter._extract_spans(spns)` (lines 163-178): an admitted span
yields `(spn.get('text', None), spn.get('bbox', (0, 0))[1])` — note the
`None` default for the text and the `0` at index 1 of the default pair —
a rejected span yields the marker `None`. -/
def ToCFilter.extract_spans (f : ToCFilter) (spns : List Span) :
    List (Option (Option String × ℚ)) :=
  spns.map fun spn =>
    if f.admits spn then
      some (spn.text, match spn.bbox with
                      | some b => b.2.1
                      | none => 0)
    else none

/-- `ToCFilter._extract_lines(lines)` (lines 180-193): the flattened
concatenation of the per-line span extraction. -/
def ToCFilter.extract_lines (f : ToCFilter) (lines : List Line) :
    List (Option (Option String × ℚ)) :=
  (lines.map fun ln => f.extract_spans (ln.spans.getD [])).flatten

/-! ### filter.py: merge_optional (lines 227-246)

`itertools.groupby`, the `zip(*grp)` unpacking, `sep.join` and `min` are
modelled so that exactly the calls that raise in Python return `none`:
`sep.join` raises `TypeError` when an element is `None`, and `zip`/`min`
raise on malformed groups (which well-formed runs never produce). -/

/-- `itertools.groupby(ls, key)` for a boolean key: the list of maximal
contiguous runs, each tagged with the key value its elements share. -/
def groupby {α : Type} (key : α → Bool) : List α → List (Bool × List α)
  | [] => []
  | [x] => [(key x, [x])]
  | x :: y :: xs =>
    match groupby key (y :: xs) with
    | (b, g) :: gs =>
      if key x == b then (b, x :: g) :: gs else (key x, [x]) :: (b, g) :: gs
    | [] => [(key x, [x])]

/-- Unwrap a list of optional values, failing if any is absent (the way
`zip(*grp)` fails on a stray `None`). -/
def seqOption {β : Type} : List (Option β) → Option (List β)
  | [] => some []
  | none :: _ => none
  | some b :: rest => (seqOption rest).map (b :: ·)

/-- Python `sep.join(strs)` over possibly-`None` elements: a `TypeError`
(here `none`) when any element is not a string. -/
def pyJoin (sep : String) (strs : List (Option String)) : Option String :=
  (seqOption strs).map (String.intercalate sep)

/-- Python `min` over a sequence: the first minimum, an error (`none`) on
an empty sequence. -/
def pyMin : List ℚ → Option ℚ
  | [] => none
  | v :: vs => some (vs.foldl min v)

/-- The body of `merge_optional`'s loop for one non-marker group:
`strs, vtops = zip(*grp)` then `(sep.join(strs), min(vtops))`. -/
def mergeGroup (sep : String) (grp : List (Option (Option String × ℚ))) :
    Option (String × ℚ) := do
  let pairs ← seqOption grp
  let title ← pyJoin sep (pairs.map Prod.fst)
  let v ← pyMin (pairs.map Prod.snd)
  pure (title, v)

/-- The `for nothing, grp in groupby(...)` loop of `merge_optional`:
marker groups are skipped, each value group contributes one merged
pair. -/
def mergeGroups (sep : String) :
    List (Bool × List (Option (Option String × ℚ))) →
    Option (List (String × ℚ))
  | [] => some []
  | (nothing, grp) :: rest =>
    if nothing then mergeGroups sep rest
    else do
      let e ← mergeGroup sep grp
      let tail ← mergeGroups sep rest
      pure (e :: tail)

/-- `merge_optional(ls, sep=" ")` (lines 227-246). -/
def merge_optional (ls : List (Option (Option String × ℚ)))
    (sep : String := " ") : Option (List (String × ℚ)) :=
  mergeGroups sep (groupby Option.isNone ls)

/-! ### filter.py: extract_toc (lines 195-224) -/

/-- The inner `for blk in page.get('blocks', [])` loop: per-block line
extraction and merging, extended into one list of `(title, vpos)`
pairs. -/
def blocksEntries (fltr : ToCFilter) : List Block → Option (List (String × ℚ))
  | [] => some []
  | blk :: rest => do
    let e ← merge_optional (fltr.extract_lines (blk.lines.getD []))
    let tail ← blocksEntries fltr rest
    pure (e ++ tail)

/-- The `for pagenum, page in enumerate(pages, 1)` loop of
`extract_toc`. -/
def extract_toc_go (fltr : ToCFilter) : Nat → List Page → Option (List ToCEntry)
  | _, [] => some []
  | pagenum, page :: rest => do
    let entries ← blocksEntries fltr (page.blocks.getD [])
    let tail ← extract_toc_go fltr (pagenum + 1) rest
    pure ((entries.map fun p => ToCEntry.mk fltr.level p.1 pagenum p.2) ++ tail)

/-- `extract_toc(pages, fltr)` (lines 195-224). -/
def extract_toc (pages : List Page) (fltr : ToCFilter) :
    Option (List ToCEntry) :=
  extract_toc_go fltr 1 pages

/-! ### Specification-side definitions

These follow the spec's words (§4.5, §4.2, §4.6) rather than the source,
to be compared with the source-side definitions above. -/

/-- The maximal contiguous runs of present values of an optional list, in
order; `none` markers only delimit runs (spec §4.5). -/
def valueRuns {α : Type} : List (Option α) → List (List α)
  | [] => []
  | none :: xs => valueRuns xs
  | [some a] => [[a]]
  | some a :: none :: xs => [a] :: valueRuns xs
  | some a :: some b :: xs =>
    match valueRuns (some b :: xs) with
    | r :: rs => (a :: r) :: rs
    | [] => [[a]]

/-- Spec §4.5: a value run merges to the separator-join of its texts and
the minimum of its vertical positions (junk value on the empty run, which
never occurs). -/
def mergeRun (sep : String) (run : List (String × ℚ)) : String × ℚ :=
  (String.intercalate sep (run.map Prod.fst),
   match run.map Prod.snd with
   | [] => 0
   | v :: vs => vs.foldl min v)

/-- The merge of spec §4.5 over proper `(text, vpos)` pairs. -/
def mergeSpec (sep : String) (ls : List (Option (String × ℚ))) :
    List (String × ℚ) :=
  (valueRuns ls).map (mergeRun sep)

/-- Wrap proper `(text, vpos)` pairs into the element type of
`merge_optional` (whose text component is optional because
`_extract_spans` defaults a missing text to `None`). -/
def liftPairs (ls : List (Option (String × ℚ))) :
    List (Option (Option String × ℚ)) :=
  ls.map (Option.map fun p => (some p.1, p.2))

/-- The packed span-flag word for the five style attributes, in the bit
layout of filter.py lines 70-74. -/
def packFlags (sup ital ser mono bold : Bool) : Int :=
  (if sup then 1 else 0) + (if ital then 2 else 0) + (if ser then 4 else 0) +
  (if mono then 8 else 0) + (if bold then 16 else 0)

/-- The ternary per-flag constraint of spec §4.2: an unconstrained flag
admits any value, a constrained flag must equal the span's. -/
def flagOk : Option Bool → Bool → Bool
  | none, _ => true
  | some e, v => e == v

/-- Sequencing a list of fallible computations in order, as spec §4.6
composes per-page and per-block results. -/
def optMapList {β γ : Type} (f : β → Option γ) : List β → Option (List γ)
  | [] => some []
  | b :: rest => do
    let c ← f b
    let tail ← optMapList f rest
    pure (c :: tail)

/-! ### Concrete records used by several claims -/

/-- A span record with every key missing. -/
def bareSpan : Span := ⟨none, none, none, none, none, none⟩

/-- A font configuration constraining only `bold: true`. -/
def onlyBoldDict : FontDict :=
  ⟨none, none, none, none, none, none, none, none, some true⟩

/-- A font configuration constraining `bold: true` and `italic: false`. -/
def boldNotItalicDict : FontDict :=
  ⟨none, none, none, none, none, some false, none, none, some true⟩

/-- A span whose packed flags are `{bold, italic}` (`0b10010`). -/
def boldItalicSpan : Span := ⟨none, none, none, none, some 18, none⟩

/-- The `ToCFilter` produced by the configuration `{level: 1}`. -/
def fltrLevelOne : ToCFilter :=
  { level := 1
    font := FontFilter.ofDict emptyFontDict
    bbox := BoundingBoxFilter.ofDict emptyBBoxDict }

/-- An admitted span with no `text` key (C2's failing input). -/
def noTextSpan : Span := ⟨none, none, none, none, none, some (0, 10, 100, 20)⟩

/-- A one-page document whose only span is admitted but has no text. -/
def noTextPage : Page := ⟨some [⟨some [⟨some [noTextSpan]⟩]⟩]⟩

/-- The end-to-end scenario's filter configuration
`{level: 1, font: {name: "Bold", bold: true}, bbox: {}}`. -/
def scenarioDict : FltrDict :=
  ⟨some 1,
   some ⟨some "Bold", none, none, none, none, none, none, none, some true⟩,
   some emptyBBoxDict⟩

/-- The end-to-end scenario's filter, as built by `ToCFilter.ofDict`. -/
def scenarioFltr : ToCFilter :=
  { level := 1
    font := FontFilter.ofDict
      ⟨some "Bold", none, none, none, none, none, none, none, some true⟩
    bbox := BoundingBoxFilter.ofDict emptyBBoxDict }

/-- Line A of the scenario: a matching bold span followed by a
non-matching footnote span. -/
def scenarioLineA : Line :=
  ⟨some [⟨some "Chapter 1", some "Bold-Font", none, none, some 16, some (0, 10, 100, 20)⟩,
         ⟨some "footnote", some "Regular", none, none, some 0, some (0, 50, 50, 60)⟩]⟩

/-- Line B of the scenario: a single matching bold span. -/
def scenarioLineB : Line :=
  ⟨some [⟨some "Intro", some "Bold-Font", none, none, some 16, some (0, 11, 100, 21)⟩]⟩

/-- The scenario's one-page document: one block holding lines A and B. -/
def scenarioPage : Page := ⟨some [⟨some [scenarioLineA, scenarioLineB]⟩]⟩

/-- A span with a text and nothing else (used to instantiate general
statements). -/
def textSpan : Span := ⟨some "x", none, none, none, none, none⟩

/-! ### Helper lemmas: Python integer operations -/

theorem pyXor_zero (a : Int) : pyXor a 0 = a := by
  cases a with
  | ofNat m => show Int.ofNat (m ^^^ 0) = Int.ofNat m; rw [Nat.xor_zero]
  | negSucc m => show Int.negSucc (m ^^^ 0) = Int.negSucc m; rw [Nat.xor_zero]

theorem pyAnd_zero (a : Int) : pyAnd a 0 = 0 := by
  cases a with
  | ofNat m => show Int.ofNat (m &&& 0) = Int.ofNat 0; rw [Nat.and_zero]
  | negSucc m =>
    show Int.ofNat (natDiff 0 m) = Int.ofNat 0
    unfold natDiff
    rw [Nat.zero_and, Nat.xor_zero]

/-- `(~a) ^ a` is all-ones, i.e. `-1`. -/
theorem pyXor_pyNot_self (a : Int) : pyXor (pyNot a) a = Int.negSucc 0 := by
  cases a with
  | ofNat m => show Int.negSucc (m ^^^ m) = Int.negSucc 0; rw [Nat.xor_self]
  | negSucc m => show Int.negSucc (m ^^^ m) = Int.negSucc 0; rw [Nat.xor_self]

/-- `-1 & a = a`: all-ones is neutral for bitwise and. -/
theorem pyAnd_negOne (a : Int) : pyAnd (Int.negSucc 0) a = a := by
  cases a with
  | ofNat n =>
    show Int.ofNat (natDiff n 0) = Int.ofNat n
    unfold natDiff
    rw [Nat.and_zero, Nat.xor_zero]
  | negSucc n => show Int.negSucc (0 ||| n) = Int.negSucc n; rw [Nat.zero_or]

/-! ### Helper lemmas: the regex model and small list facts -/

theorem containsSub_nil (l : List Char) : containsSub [] l = true := by
  cases l <;> rfl

theorem reSearch_empty (s : String) : reSearch "" s = true :=
  containsSub_nil s.toList

theorem seqOption_map_some {β : Type} (l : List β) :
    seqOption (l.map some) = some l := by
  induction l with
  | nil => rfl
  | cons b rest ih => simp [seqOption, ih]

theorem optMapList_map {β γ δ : Type} (f : γ → Option δ) (h : β → γ)
    (l : List β) : optMapList f (l.map h) = optMapList (fun x => f (h x)) l := by
  induction l with
  | nil => rfl
  | cons b rest ih => simp [optMapList, ih]

theorem optMapList_eq_map {β γ : Type} (f : β → Option γ) (g : β → γ)
    (l : List β) (h : ∀ x ∈ l, f x = some (g x)) :
    optMapList f l = some (l.map g) := by
  induction l with
  | nil => rfl
  | cons b rest ih =>
    have hb := h b (List.mem_cons_self b rest)
    have hrest := ih fun x hx => h x (List.mem_cons_of_mem b hx)
    simp [optMapList, hb, hrest]

/-! ### Helper lemmas: the run structure of `groupby` and `valueRuns` -/

/-- The first group produced by `groupby` on a nonempty list carries the
key of the head element and starts with it. -/
theorem groupby_cons_shape {α : Type} (key : α → Bool) (y : α) (xs : List α) :
    ∃ g gs, groupby key (y :: xs) = (key y, y :: g) :: gs := by
  induction xs generalizing y with
  | nil => exact ⟨[], [], rfl⟩
  | cons z t ih =>
    obtain ⟨g', gs', hg⟩ := ih z
    by_cases hb : key y = key z
    · exact ⟨z :: g', gs', by rw [groupby, hg]; simp [hb]⟩
    · exact ⟨[], (key z, z :: g') :: gs', by rw [groupby, hg]; simp [hb]⟩

/-- The first run produced by `valueRuns` on a list with a present head
starts with that head's value. -/
theorem valueRuns_cons_some {α : Type} (xs : List (Option α)) (a : α) :
    ∃ r rs, valueRuns (some a :: xs) = (a :: r) :: rs := by
  induction xs generalizing a with
  | nil => exact ⟨[], [], rfl⟩
  | cons x t ih =>
    cases x with
    | none => exact ⟨[], valueRuns t, rfl⟩
    | some b =>
      obtain ⟨r, rs, hr⟩ := ih b
      exact ⟨b :: r, rs, by rw [valueRuns, hr]⟩

/-- Every run produced by `valueRuns` is nonempty. -/
theorem valueRuns_ne_nil {α : Type} (ls : List (Option α)) :
    ∀ r ∈ valueRuns ls, r ≠ [] := by
  induction ls with
  | nil => intro r hr; cases hr
  | cons x xs ih =>
    cases x with
    | none =>
      intro r hr
      exact ih r hr
    | some a =>
      cases xs with
      | nil =>
        intro r hr
        rw [valueRuns] at hr
        rcases List.mem_cons.mp hr with h | h
        · simp [h]
        · cases h
      | cons y t =>
        cases y with
        | none =>
          intro r hr
          rw [valueRuns] at hr
          rcases List.mem_cons.mp hr with h | h
          · simp [h]
          · exact ih r h
        | some b =>
          obtain ⟨r0, rs0, hr0⟩ := valueRuns_cons_some t b
          intro r hr
          rw [valueRuns, hr0] at hr
          rcases List.mem_cons.mp hr with h | h
          · simp [h]
          · exact ih r (by rw [hr0]; exact List.mem_cons_of_mem _ h)

/-- `valueRuns` commutes with mapping a function over the present
values. -/
theorem valueRuns_map {α β : Type} (h : α → β) (ls : List (Option α)) :
    valueRuns (ls.map (Option.map h)) = (valueRuns ls).map (List.map h) := by
  induction ls with
  | nil => rfl
  | cons x xs ih =>
    cases x with
    | none => simpa [valueRuns] using ih
    | some a =>
      cases xs with
      | nil => rfl
      | cons y t =>
        cases y with
        | none => simpa [valueRuns] using ih
        | some b =>
          obtain ⟨r0, rs0, hr0⟩ := valueRuns_cons_some t b
          have ih' := ih
          rw [valueRuns, hr0]
          show valueRuns (some (h a) :: some (h b) :: t.map (Option.map h)) = _
          rw [valueRuns]
          have : valueRuns (some (h b) :: t.map (Option.map h))
              = ((b :: r0) :: rs0).map (List.map h) := by
            rw [← hr0, ← ih']; rfl
          rw [this]
          rfl

/-- `valueRuns` of an all-marker list is empty. -/
theorem valueRuns_all_none {α : Type} (ls : List (Option α))
    (h : ∀ x ∈ ls, x = none) : valueRuns ls = [] := by
  induction ls with
  | nil => rfl
  | cons x xs ih =>
    have hx := h x (List.mem_cons_self x xs)
    subst hx
    exact ih fun y hy => h y (List.mem_cons_of_mem _ hy)

/-- The merging loop skips marker groups: it is the sequential merge of
the non-marker groups. -/
theorem mergeGroups_filter (sep : String)
    (gs : List (Bool × List (Option (Option String × ℚ)))) :
    mergeGroups sep gs
      = optMapList (mergeGroup sep) ((gs.filter fun g => !g.1).map Prod.snd) := by
  induction gs with
  | nil => rfl
  | cons g rest ih =>
    obtain ⟨nothing, grp⟩ := g
    cases nothing with
    | true => simpa [mergeGroups, List.filter] using ih
    | false =>
      simp [mergeGroups, List.filter, optMapList, ih]

/-- Prepending a marker does not change the non-marker groups. -/
theorem groupby_filter_none {β : Type} (xs : List (Option β)) :
    ((groupby Option.isNone (none :: xs)).filter fun g => !g.1)
      = (groupby Option.isNone xs).filter fun g => !g.1 := by
  cases xs with
  | nil => rfl
  | cons y t =>
    obtain ⟨g, gs, hg⟩ := groupby_cons_shape Option.isNone y t
    cases y with
    | none => rw [groupby, hg]; simp [List.filter]
    | some b => rw [groupby, hg]; simp [List.filter]

/-- Prepending a value right before a marker (or at the very end) opens a
fresh singleton non-marker group. -/
theorem groupby_filter_some_break {β : Type} (a : β) (xs : List (Option β))
    (h : xs = [] ∨ ∃ t, xs = none :: t) :
    ((groupby Option.isNone (some a :: xs)).filter fun g => !g.1)
      = (false, [some a]) :: ((groupby Option.isNone xs).filter fun g => !g.1) := by
  rcases h with h | ⟨t, h⟩ <;> subst h
  · rfl
  · obtain ⟨g, gs, hg⟩ := groupby_cons_shape Option.isNone none t
    rw [groupby, hg]
    simp [List.filter]

/-- Prepending a value before another value extends the first non-marker
group. -/
theorem groupby_filter_some_extend {β : Type} (a b : β) (t : List (Option β)) :
    ∃ g gs,
      ((groupby Option.isNone (some b :: t)).filter fun g => !g.1)
        = (false, some b :: g) :: gs ∧
      ((groupby Option.isNone (some a :: some b :: t)).filter fun g => !g.1)
        = (false, some a :: some b :: g) :: gs := by
  obtain ⟨g, gs, hg⟩ := groupby_cons_shape Option.isNone (some b) t
  refine ⟨g, gs.filter fun g => !g.1, ?_, ?_⟩
  · rw [hg]; simp [List.filter]
  · rw [groupby, hg]; simp [List.filter]

/-- The non-marker groups of `groupby Option.isNone` are exactly the value
runs, each with its elements still wrapped in `some`. -/
theorem groupby_filter_eq_valueRuns {β : Type} (ls : List (Option β)) :
    ((groupby Option.isNone ls).filter fun g => !g.1).map Prod.snd
      = (valueRuns ls).map (List.map some) := by
  induction ls with
  | nil => rfl
  | cons x xs ih =>
    cases x with
    | none =>
      rw [groupby_filter_none, valueRuns]
      exact ih
    | some a =>
      cases xs with
      | nil => rfl
      | cons y t =>
        cases y with
        | none =>
          rw [groupby_filter_some_break a (none :: t) (Or.inr ⟨t, rfl⟩),
            valueRuns]
          have : valueRuns (none :: t) = valueRuns t := by rw [valueRuns]
          rw [← this]
          simpa using congrArg (List.cons [some a]) ih
        | some b =>
          obtain ⟨r0, rs0, hr0⟩ := valueRuns_cons_some t b
          obtain ⟨g, gs, hg1, hg2⟩ := groupby_filter_some_extend a b t
          rw [hg2, valueRuns, hr0]
          rw [hg1, hr0] at ih
          simp only [List.map_cons] at ih ⊢
          injection ih with h1 h2
          injection h1 with _ h1'
          rw [h1', h2]

/-- `merge_optional` factored through the value runs. -/
theorem merge_optional_eq_runs (ls : List (Option (Option String × ℚ)))
    (sep : String) :
    merge_optional ls sep
      = optMapList (fun r => mergeGroup sep (r.map some)) (valueRuns ls) := by
  unfold merge_optional
  rw [mergeGroups_filter, groupby_filter_eq_valueRuns]
  exact optMapList_map _ _ _

theorem seqOption_map_comp {β γ : Type} (f : β → γ) (l : List β) :
    seqOption (l.map fun x => some (f x)) = some (l.map f) := by
  induction l with
  | nil => rfl
  | cons b t ih => simp [seqOption, ih]

/-- A nonempty run of proper pairs, lifted into the optional-text element
type, merges to exactly `mergeRun`. -/
theorem mergeGroup_lifted (sep : String) (r : List (String × ℚ)) (h : r ≠ []) :
    mergeGroup sep ((r.map fun p => ((some p.1 : Option String), p.2)).map some)
      = some (mergeRun sep r) := by
  cases r with
  | nil => exact absurd rfl h
  | cons p t =>
    simp [mergeGroup, seqOption, seqOption_map_comp, pyJoin, pyMin, mergeRun,
      List.map_map, Function.comp_def]

/-- Master lemma: merging a lifted list of proper `(text, vpos)` pairs
never fails and agrees with the specification-side merge. -/
theorem merge_liftPairs (ls : List (Option (String × ℚ))) (sep : String) :
    merge_optional (liftPairs ls) sep = some (mergeSpec sep ls) := by
  unfold liftPairs
  rw [merge_optional_eq_runs, valueRuns_map, optMapList_map]
  rw [optMapList_eq_map _ (mergeRun sep) _ fun r hr =>
    mergeGroup_lifted sep r (valueRuns_ne_nil ls r hr)]
  rfl

/-- `valueRuns` of a marker-free nonempty list is the single run of all
its values. -/
theorem valueRuns_map_some {α : Type} (l : List α) (h : l ≠ []) :
    valueRuns (l.map some) = [l] := by
  induction l with
  | nil => exact absurd rfl h
  | cons a t ih =>
    cases t with
    | nil => rfl
    | cons b u =>
      have ih' : valueRuns (some b :: u.map some) = [b :: u] := by
        simpa using ih (by simp)
      show valueRuns (some a :: some b :: u.map some) = [a :: b :: u]
      rw [valueRuns, ih']

/-! ### Helper lemmas: the extraction loops -/

/-- The per-page block loop is the sequential per-block merge, with the
per-block entry lists concatenated. -/
theorem blocksEntries_eq (fltr : ToCFilter) (bs : List Block) :
    blocksEntries fltr bs
      = (optMapList
          (fun blk => merge_optional (fltr.extract_lines (blk.lines.getD [])))
          bs).map List.flatten := by
  induction bs with
  | nil => rfl
  | cons blk rest ih =>
    simp only [blocksEntries, optMapList, ih]
    cases merge_optional (fltr.extract_lines (blk.lines.getD [])) with
    | none => rfl
    | some e =>
      cases optMapList
          (fun blk => merge_optional (fltr.extract_lines (blk.lines.getD [])))
          rest with
      | none => rfl
      | some tail => simp

/-- The page loop, started at any page number, is the sequential per-page
extraction over the enumerated pages, concatenated. -/
theorem extract_toc_go_eq (fltr : ToCFilter) (n : Nat) (ps : List Page) :
    extract_toc_go fltr n ps
      = (optMapList (fun pr : Nat × Page =>
            (optMapList
                (fun blk => merge_optional (fltr.extract_lines (blk.lines.getD [])))
                (pr.2.blocks.getD [])).map
              fun bs => bs.flatten.map fun p => ToCEntry.mk fltr.level p.1 pr.1 p.2)
          (ps.enumFrom n)).map List.flatten := by
  induction ps generalizing n with
  | nil => rfl
  | cons page rest ih =>
    simp only [extract_toc_go, List.enumFrom, optMapList, blocksEntries_eq,
      ih rest.length.succ]
    rw [ih (n + 1)]
    cases optMapList
        (fun blk => merge_optional (fltr.extract_lines (blk.lines.getD [])))
        (page.blocks.getD []) with
    | none => rfl
    | some bs =>
      cases optMapList (fun pr : Nat × Page =>
          (optMapList
              (fun blk => merge_optional (fltr.extract_lines (blk.lines.getD [])))
              (pr.2.blocks.getD [])).map
            fun bs => bs.flatten.map fun p => ToCEntry.mk fltr.level p.1 pr.1 p.2)
          (rest.enumFrom (n + 1)) with
      | none => rfl
      | some tails => simp

/-- The left fold of `min` over a list of zeros starting from zero is
zero. -/
theorem foldl_min_zeros (vs : List ℚ) (v : ℚ) (hv : v = 0)
    (h : ∀ x ∈ vs, x = 0) : vs.foldl min v = 0 := by
  induction vs generalizing v with
  | nil => exact hv
  | cons w t ih =>
    have hw : w = 0 := h w (List.mem_cons_self w t)
    exact ih (min v w) (by rw [hv, hw]; exact min_self 0)
      fun x hx => h x (List.mem_cons_of_mem _ hx)

/-! ## The claims -/

/-- C1, counterexample: for the predicate `{bold: true}`, the span with no
keys at all passes the name, color and size steps, yet `admits` is false —
the style-flag step does reject a span whose `flags` field is entirely
missing, contrary to the claim. -/
theorem C1_counterexample :
    (FontFilter.ofDict onlyBoldDict).admits bareSpan = false
    ∧ (FontFilter.ofDict onlyBoldDict).name (bareSpan.font.getD "") = true
    ∧ (FontFilter.ofDict onlyBoldDict).color = none
    ∧ admits_float (FontFilter.ofDict onlyBoldDict).size bareSpan.size
        (FontFilter.ofDict onlyBoldDict).size_tolerance = true
    ∧ (FontFilter.ofDict onlyBoldDict).flagCheck bareSpan = false := by
  decide

/-- C1, amended: a span entirely missing its `flags` field passes the
style-flag check iff the predicate constrains no style flag at all
(`ign_mask = 0`); with at least one flag constrained such a span is
rejected by the style-flag step, because the default
`~self.flags` makes `(flags ^ self.flags) & self.ign_mask` equal to
`self.ign_mask`. -/
theorem C1_missing_flags_iff_no_constraint (f : FontFilter) (spn : Span)
    (h : spn.flags = none) : f.flagCheck spn = (f.ign_mask == 0) := by
  unfold FontFilter.flagCheck
  rw [h]
  show (pyAnd (pyXor (pyNot f.flags) f.flags) f.ign_mask == 0) = _
  rw [pyXor_pyNot_self, pyAnd_negOne]

theorem C1_missing_flags_iff_no_constraint_witness :
    (FontFilter.ofDict onlyBoldDict).flagCheck bareSpan
      = ((FontFilter.ofDict onlyBoldDict).ign_mask == 0) :=
  C1_missing_flags_iff_no_constraint (FontFilter.ofDict onlyBoldDict) bareSpan rfl

/-- C2: the configuration `{level: 1}` builds a filter admitting every
span; the one-span page whose span has no `text` key is admitted, but
`extract_toc` fails (Python: `TypeError` inside `sep.join`, because
`_extract_spans` defaults a missing text to `None`, not `""`) instead of
producing an entry with an empty title as the spec demands. -/
theorem C2_missing_text_fails :
    ToCFilter.ofDict ⟨some 1, none, none⟩ = .ok fltrLevelOne
    ∧ fltrLevelOne.admits noTextSpan = true
    ∧ extract_toc [noTextPage] fltrLevelOne = none :=
  ⟨rfl, by decide, by decide⟩

/-- C3: `merge_optional` over proper `(text, vpos)` pairs realizes the
run-merging specification: one output pair per maximal value run, its text
the separator-join of the run's texts in order, its vpos the run's minimum;
marker runs produce nothing.  Edge cases: empty input, all-marker input,
and marker-free input. -/
theorem C3_merge_optional_spec :
    (∀ (ls : List (Option (String × ℚ))) (sep : String),
        merge_optional (liftPairs ls) sep = some (mergeSpec sep ls))
    ∧ merge_optional [] = some []
    ∧ (∀ (ls : List (Option (Option String × ℚ))) (sep : String),
        (∀ x ∈ ls, x = none) → merge_optional ls sep = some [])
    ∧ (∀ (ps : List (String × ℚ)) (sep : String), ps ≠ [] →
        merge_optional (liftPairs (ps.map some)) sep = some [mergeRun sep ps]) := by
  refine ⟨merge_liftPairs, rfl, ?_, ?_⟩
  · intro ls sep h
    rw [merge_optional_eq_runs, valueRuns_all_none ls h]
    rfl
  · intro ps sep h
    rw [merge_liftPairs]
    unfold mergeSpec
    rw [valueRuns_map_some ps h]
    rfl

theorem C3_merge_optional_spec_witness :
    merge_optional
        (liftPairs [some ("1", 1), some ("Section One", 2), none,
          some ("Lorem ipsum", 3)])
      = some [("1 Section One", 1), ("Lorem ipsum", 3)]
    ∧ merge_optional [none, none] = some []
    ∧ merge_optional (liftPairs ([("a", 5), ("b", 2)].map some))
      = some [("a b", 2)] := by
  refine ⟨?_, ?_, ?_⟩
  · rw [C3_merge_optional_spec.1]
    decide
  · exact C3_merge_optional_spec.2.2.1 [none, none] " " (by decide)
  · rw [C3_merge_optional_spec.2.2.2 [("a", 5), ("b", 2)] " " (by decide)]
    decide

/-- C4: the end-to-end scenario: the configuration
`{level: 1, font: {name: "Bold", bold: true}, bbox: {}}` builds exactly
`scenarioFltr`; the footnote span is rejected while both bold spans are
admitted, and extraction over the one-page document yields exactly the
two entries `(1, "Chapter 1", 1, 10)` and `(1, "Intro", 1, 11)` in that
order. -/
theorem C4_end_to_end :
    ToCFilter.ofDict scenarioDict = .ok scenarioFltr
    ∧ scenarioFltr.admits
        ⟨some "footnote", some "Regular", none, none, some 0, some (0, 50, 50, 60)⟩
      = false
    ∧ extract_toc [scenarioPage] scenarioFltr
      = some [⟨1, "Chapter 1", 1, 10⟩, ⟨1, "Intro", 1, 11⟩] :=
  ⟨rfl, by decide, by decide⟩

/-- C5: `ToCFilter` construction fails exactly when `level` is missing or
`< 1`, with the two distinguishing messages, and succeeds with a filter
carrying the level otherwise. -/
theorem C5_level_validation :
    (∀ d : FltrDict, d.level = none →
        ToCFilter.ofDict d = .error "filter's 'level' is not set")
    ∧ (∀ (d : FltrDict) (lv : Int), d.level = some lv → lv < 1 →
        ToCFilter.ofDict d = .error "filter's 'level' must be >= 1")
    ∧ (∀ (d : FltrDict) (lv : Int), d.level = some lv → 1 ≤ lv →
        ∃ f : ToCFilter, ToCFilter.ofDict d = .ok f ∧ f.level = lv)
    ∧ (∀ (d : FltrDict) (f : ToCFilter), ToCFilter.ofDict d = .ok f →
        ∃ lv : Int, d.level = some lv ∧ 1 ≤ lv ∧ f.level = lv) := by
  refine ⟨?_, ?_, ?_, ?_⟩
  · intro d h
    unfold ToCFilter.ofDict
    rw [h]
  · intro d lv h hlt
    unfold ToCFilter.ofDict
    rw [h]
    show (if lv < 1 then (Except.error "filter's 'level' must be >= 1") else
        Except.ok
          ({ level := lv, font := FontFilter.ofDict (d.font.getD emptyFontDict),
             bbox := BoundingBoxFilter.ofDict (d.bbox.getD emptyBBoxDict) } : ToCFilter))
      = Except.error "filter's 'level' must be >= 1"
    rw [if_pos hlt]
  · intro d lv h hge
    unfold ToCFilter.ofDict
    rw [h]
    show ∃ f : ToCFilter,
      (if lv < 1 then (Except.error "filter's 'level' must be >= 1") else
        Except.ok
          ({ level := lv, font := FontFilter.ofDict (d.font.getD emptyFontDict),
             bbox := BoundingBoxFilter.ofDict (d.bbox.getD emptyBBoxDict) } : ToCFilter))
        = Except.ok f ∧ f.level = lv
    rw [if_neg (by omega)]
    exact ⟨_, rfl, rfl⟩
  · intro d f h
    unfold ToCFilter.ofDict at h
    cases hl : d.level with
    | none =>
      rw [hl] at h
      exact Except.noConfusion h
    | some lv =>
      rw [hl] at h
      replace h :
          (if lv < 1 then (Except.error "filter's 'level' must be >= 1") else
            Except.ok
              ({ level := lv, font := FontFilter.ofDict (d.font.getD emptyFontDict),
                 bbox := BoundingBoxFilter.ofDict (d.bbox.getD emptyBBoxDict) } : ToCFilter))
            = Except.ok f := h
      by_cases hlt : lv < 1
      · rw [if_pos hlt] at h
        exact Except.noConfusion h
      · rw [if_neg hlt] at h
        injection h with h'
        exact ⟨lv, rfl, by omega, by rw [← h']⟩

theorem C5_level_validation_witness :
    ToCFilter.ofDict ⟨none, none, none⟩ = .error "filter's 'level' is not set"
    ∧ ToCFilter.ofDict ⟨some 0, none, none⟩
      = .error "filter's 'level' must be >= 1"
    ∧ ∃ f : ToCFilter, ToCFilter.ofDict ⟨some 1, none, none⟩ = .ok f
        ∧ f.level = 1 :=
  ⟨C5_level_validation.1 ⟨none, none, none⟩ rfl,
   C5_level_validation.2.1 ⟨some 0, none, none⟩ 0 rfl (by decide),
   C5_level_validation.2.2.1 ⟨some 1, none, none⟩ 1 rfl (by decide)⟩

/-- The merged vpos of a run whose positions are all zero is zero. -/
theorem mergeRun_snd_zero (sep : String) (ps : List (String × ℚ))
    (h : ∀ p ∈ ps, p.2 = 0) (hne : ps ≠ []) : (mergeRun sep ps).2 = 0 := by
  cases ps with
  | nil => exact absurd rfl hne
  | cons p t =>
    have hfold : (mergeRun sep (p :: t)).2 = (t.map Prod.snd).foldl min p.2 := rfl
    rw [hfold]
    refine foldl_min_zeros (t.map Prod.snd) p.2 (h p (List.mem_cons_self p t))
      fun x hx => ?_
    obtain ⟨q, hq, rfl⟩ := List.mem_map.mp hx
    exact h q (List.mem_cons_of_mem _ hq)

set_option maxHeartbeats 1000000 in
/-- C6: with `flags` present, the masked comparison realizes the ternary
truth table — an unconstrained flag position never causes a mismatch, and
each constrained position must equal the span's bit; in particular
P1 = `{bold: true}` admits the bold-italic span while
P2 = `{bold: true, italic: false}` rejects it. -/
theorem C6_flag_truth_table :
    (∀ (d : FontDict) (spn : Span) (s i sr m b : Bool),
        spn.flags = some (packFlags s i sr m b) →
        (FontFilter.ofDict d).flagCheck spn
          = (flagOk d.superscript s && flagOk d.italic i && flagOk d.serif sr
             && flagOk d.monospace m && flagOk d.bold b))
    ∧ (FontFilter.ofDict onlyBoldDict).admits boldItalicSpan = true
    ∧ (FontFilter.ofDict boldNotItalicDict).admits boldItalicSpan = false := by
  refine ⟨?_, by decide, by decide⟩
  intro d spn s i sr m b h
  obtain ⟨dn, ds, dst, dc, f1, f2, f3, f4, f5⟩ := d
  simp only [FontFilter.flagCheck, FontFilter.ofDict, h, Option.getD_some]
  clear h
  revert f1 f2 f3 f4 f5 s i sr m b
  decide

theorem C6_flag_truth_table_witness :
    (FontFilter.ofDict onlyBoldDict).flagCheck boldItalicSpan
      = (flagOk onlyBoldDict.superscript false && flagOk onlyBoldDict.italic true
         && flagOk onlyBoldDict.serif false && flagOk onlyBoldDict.monospace false
         && flagOk onlyBoldDict.bold true) :=
  C6_flag_truth_table.1 onlyBoldDict boldItalicSpan false true false false true rfl

/-- C7: `admits_float` is true exactly when the expected value is absent,
or the actual value is present and within tolerance; consequently every
value matches itself under any nonnegative tolerance, and an absent
expectation admits anything. -/
theorem C7_admits_float :
    (∀ (e a : Option ℚ) (t : ℚ),
        admits_float e a t = true
          ↔ e = none ∨ ∃ x y, e = some x ∧ a = some y ∧ |x - y| ≤ t)
    ∧ (∀ x t : ℚ, 0 ≤ t → admits_float (some x) (some x) t = true)
    ∧ (∀ (a : Option ℚ) (t : ℚ), admits_float none a t = true) := by
  refine ⟨?_, ?_, fun a t => rfl⟩
  · intro e a t
    cases e with
    | none => simp [admits_float]
    | some x =>
      cases a with
      | none => simp [admits_float]
      | some y => simp [admits_float]
  · intro x t ht
    simp [admits_float, ht]

theorem C7_admits_float_witness :
    admits_float (some 3) (some 3) 1 = true
    ∧ admits_float none (some 5) 0 = true :=
  ⟨C7_admits_float.2.1 3 1 (by norm_num), C7_admits_float.2.2 (some 5) 0⟩

/-- C8: `extract_toc` is the concatenation, over the pages enumerated
1-based in order, of the per-page entries; each page's entries are the
concatenation over its blocks of the per-block run-merge (merging never
crosses a block boundary), each merged pair tagged with the filter's
level and the page number; the empty page list yields the empty entry
sequence. -/
theorem C8_extraction_structure (pages : List Page) (fltr : ToCFilter) :
    extract_toc pages fltr
      = (optMapList (fun pr : Nat × Page =>
            (optMapList
                (fun blk => merge_optional (fltr.extract_lines (blk.lines.getD [])))
                (pr.2.blocks.getD [])).map
              fun bs => bs.flatten.map fun p => ToCEntry.mk fltr.level p.1 pr.1 p.2)
          (pages.enumFrom 1)).map List.flatten
    ∧ extract_toc [] fltr = some [] :=
  ⟨extract_toc_go_eq fltr 1 pages, rfl⟩

/-- C9: the `FontFilter` built from an entirely empty configuration admits
every span: the empty pattern matches any font name (a missing one
included), color and size are unconstrained, and with an all-zero mask the
style-flag step cannot fail, whether the span's flags are present or
missing. -/
theorem C9_empty_font_admits_all (spn : Span) :
    (FontFilter.ofDict emptyFontDict).admits spn = true := by
  have hflag : (FontFilter.ofDict emptyFontDict).flagCheck spn = true := by
    unfold FontFilter.flagCheck
    cases hfl : spn.flags with
    | none => decide
    | some n =>
      show (pyAnd (pyXor n 0) 0 == 0) = true
      rw [pyAnd_zero]
      decide
  have hname : (FontFilter.ofDict emptyFontDict).name (spn.font.getD "") = true :=
    reSearch_empty _
  have hcolor : (FontFilter.ofDict emptyFontDict).color = none := rfl
  have hsize : admits_float (FontFilter.ofDict emptyFontDict).size spn.size
      (FontFilter.ofDict emptyFontDict).size_tolerance = true := rfl
  simp [FontFilter.admits, hname, hcolor, hsize, hflag]

/-- C10: an admitted span with no `bbox` key is extracted with vertical
position `0` (the `[1]` of the `(0, 0)` default), not an absent-value
marker; consequently a nonempty run of such spans merges into an entry
whose vpos is `0`. -/
theorem C10_missing_bbox_vpos_zero :
    (∀ (fltr : ToCFilter) (spn : Span), spn.bbox = none →
        fltr.admits spn = true →
        fltr.extract_spans [spn] = [some (spn.text, 0)])
    ∧ (∀ (fltr : ToCFilter) (spns : List Span), spns ≠ [] →
        (∀ s ∈ spns, s.bbox = none ∧ fltr.admits s = true
          ∧ s.text.isSome = true) →
        ∃ title, merge_optional (fltr.extract_spans spns)
          = some [(title, 0)]) := by
  constructor
  · intro fltr spn h1 h2
    simp [ToCFilter.extract_spans, h1, h2]
  · intro fltr spns hne hall
    have hmap : fltr.extract_spans spns
        = liftPairs ((spns.map fun s => (s.text.getD "", (0 : ℚ))).map some) := by
      unfold ToCFilter.extract_spans liftPairs
      rw [List.map_map, List.map_map]
      refine List.map_congr_left fun s hs => ?_
      obtain ⟨hb, ha, ht⟩ := hall s hs
      obtain ⟨t, ht'⟩ := Option.isSome_iff_exists.mp ht
      simp [ha, hb, ht']
    have hne' : (spns.map fun s => (s.text.getD "", (0 : ℚ))) ≠ [] := by
      intro hemp
      exact hne (by simpa using hemp)
    rw [hmap, merge_liftPairs]
    unfold mergeSpec
    rw [valueRuns_map_some _ hne']
    have hsnd : (mergeRun " " (spns.map fun s => (s.text.getD "", (0 : ℚ)))).2
        = 0 := by
      refine mergeRun_snd_zero " " _ (fun p hp => ?_) hne'
      obtain ⟨s, _, rfl⟩ := List.mem_map.mp hp
      rfl
    rcases hX : mergeRun " " (spns.map fun s => (s.text.getD "", (0 : ℚ)))
      with ⟨ttl, vv⟩
    rw [hX] at hsnd
    replace hsnd : vv = 0 := hsnd
    subst hsnd
    exact ⟨ttl, by simp only [List.map_cons, List.map_nil, hX]⟩

theorem C10_missing_bbox_vpos_zero_witness :
    fltrLevelOne.extract_spans [textSpan] = [some (textSpan.text, 0)]
    ∧ ∃ title, merge_optional (fltrLevelOne.extract_spans [textSpan])
        = some [(title, 0)] :=
  ⟨C10_missing_bbox_vpos_zero.1 fltrLevelOne textSpan rfl (by decide),
   C10_missing_bbox_vpos_zero.2 fltrLevelOne [textSpan]
     (List.cons_ne_nil textSpan []) (by decide)⟩
